import Mathlib

/-!
Shallow embedding of the verification-gated contact-authorization core of the
Lost-and-Found application.

Sources embedded:
- `backend/controllers/chatRequestController.js`
  (`submitVerificationAnswer`, `approveChatRequest`, `declineChatRequest`);
- the message controller (`sendMessage`, `createConversation`);
- the `ChatRequest`, `Item`, `Conversation`, `Message` mongoose schemas.

JavaScript strings are modelled as lists of code points (`List Nat`); mongoose
documents are Lean structures; the database is a record of lists with fresh-id
counters; each HTTP handler becomes a pure function from a database state and
the request parameters to a result and a new database state.  An empty string
models an absent/empty text field, matching JavaScript truthiness, since the
schemas default `verificationQuestion`/`verificationAnswer` to `''`.
-/

namespace LostFound

/-- JavaScript string, modelled as the list of its character code points. -/
abbrev JSStr := List Nat

/-- Embedding of `toLowerCase` on one code point (ASCII range, `A`-`Z`). -/
def lowerChar (c : Nat) : Nat := if 65 ≤ c ∧ c ≤ 90 then c + 32 else c

/-- Whitespace test used by `trim` (space, tab, LF, VT, FF, CR). -/
def isWsp (c : Nat) : Bool := c == 32 || c == 9 || c == 10 || c == 11 || c == 12 || c == 13

/-- Embedding of `String.prototype.toLowerCase`. -/
def toLowerCase (s : JSStr) : JSStr := s.map lowerChar

/-- Leading-whitespace removal (the first half of `trim`). -/
def ltrim (s : JSStr) : JSStr := s.dropWhile isWsp

/-- Trailing-whitespace removal (the second half of `trim`). -/
def rtrim (s : JSStr) : JSStr := (s.reverse.dropWhile isWsp).reverse

/-- Embedding of `String.prototype.trim`: drop whitespace at both ends. -/
def trim (s : JSStr) : JSStr := rtrim (ltrim s)

/-- Normalization applied to answers in the controller: `x.toLowerCase().trim()`. -/
def normalize (s : JSStr) : JSStr := trim (toLowerCase s)

/-- Converts a Lean string literal into the code-point model, for examples. -/
def ofString (s : String) : JSStr := s.data.map Char.toNat

/-- Embedding of line 38 of the chat-request controller:
`answer.toLowerCase().trim() === item.verificationAnswer`. -/
def evalAnswer (submitted stored : JSStr) : Bool := decide (normalize submitted = stored)

/-- Status enum of the `ChatRequest` schema. -/
inductive RStatus
  | pending
  | approved
  | declined
deriving DecidableEq

/-- Embedding of the `Item` mongoose document (the fields this core reads).
`user` is the owner id; the two verification fields default to the empty
string, which models absence. -/
structure Item where
  id : Nat
  user : Nat
  verificationQuestion : JSStr
  verificationAnswer : JSStr
deriving DecidableEq

/-- Embedding of the `ChatRequest` mongoose document. -/
structure ChatRequest where
  id : Nat
  item : Nat
  requester : Nat
  owner : Nat
  verificationQuestion : JSStr
  correctAnswer : JSStr
  submittedAnswer : JSStr
  answerCorrect : Bool
  status : RStatus
  conversation : Option Nat
deriving DecidableEq

/-- Embedding of the `Conversation` mongoose document. -/
structure Conversation where
  id : Nat
  participants : List Nat
  item : Option Nat
  lastMessage : Option Nat
deriving DecidableEq

/-- Embedding of the `Message` mongoose document. -/
structure Message where
  id : Nat
  conversation : Nat
  sender : Nat
  content : JSStr
deriving DecidableEq

/-- Database state: one list per collection, plus fresh-id counters standing
for MongoDB object-id generation. -/
structure DB where
  items : List Item
  requests : List ChatRequest
  convs : List Conversation
  messages : List Message
  nextReqId : Nat
  nextConvId : Nat
  nextMsgId : Nat
deriving DecidableEq

/-- Initial state: a fixed item collection (items are external, read-only to
this core) and no requests, conversations or messages. -/
def DB.initial (its : List Item) : DB :=
  { items := its, requests := [], convs := [], messages := [],
    nextReqId := 0, nextConvId := 0, nextMsgId := 0 }

/-- `Item.findById(itemId)`. -/
def findItem (db : DB) (iid : Nat) : Option Item :=
  db.items.find? (fun it => it.id == iid)

/-- `ChatRequest.findById(chatRequestId)`. -/
def findReqById (db : DB) (rid : Nat) : Option ChatRequest :=
  db.requests.find? (fun r => r.id == rid)

/-- Query predicate of `ChatRequest.findOne({item, requester, owner})`. -/
def tripleP (iid uid oid : Nat) (r : ChatRequest) : Bool :=
  r.item == iid && r.requester == uid && r.owner == oid

/-- `ChatRequest.findOne({item, requester, owner})`. -/
def findRequest (db : DB) (iid uid oid : Nat) : Option ChatRequest :=
  db.requests.find? (tripleP iid uid oid)

/-- `Conversation.findById(conversationId)`. -/
def findConvById (db : DB) (cid : Nat) : Option Conversation :=
  db.convs.find? (fun c => c.id == cid)

/-- Query predicate of `Conversation.findOne({participants: {$all: [a, b]}, item})`. -/
def convForTriple (a b : Nat) (itm : Option Nat) (c : Conversation) : Bool :=
  c.participants.contains a && c.participants.contains b && c.item == itm

/-- `Conversation.findOne({participants: {$all: [a, b]}, item})`. -/
def findConvFor (db : DB) (a b : Nat) (itm : Option Nat) : Option Conversation :=
  db.convs.find? (convForTriple a b itm)

/-- Mongoose `document.save()` on a chat request: replace the stored document
with the given id. -/
def updateReq (l : List ChatRequest) (rid : Nat) (r' : ChatRequest) : List ChatRequest :=
  l.map (fun x => if x.id == rid then r' else x)

/-- Mongoose `document.save()` on a conversation. -/
def updateConv (l : List Conversation) (cid : Nat) (c' : Conversation) : List Conversation :=
  l.map (fun x => if x.id == cid then c' else x)

/-- Outcome of `submitVerificationAnswer` (HTTP status and body collapsed to
the branch taken). -/
inductive SubmitResult
  | itemNotFound
  | notConfigured
  | selfContact
  | serverError
  | done (success : Bool) (chatRequestId : Nat)
deriving DecidableEq

/-- Mongoose required-String validation run by `ChatRequest.create`: a
`required: true` String path rejects the empty string, so creation fails when
the `verificationQuestion` or `correctAnswer` snapshot is empty.  The thrown
ValidationError is caught by the controller and surfaces as the 500 branch
(`serverError`), with nothing stored. -/
def chatRequestValid (cr : ChatRequest) : Bool :=
  !cr.verificationQuestion.isEmpty && !cr.correctAnswer.isEmpty

/-- Embedding of `submitVerificationAnswer` from the chat-request controller. -/
def submitVerificationAnswer (db : DB) (userId iid : Nat) (answer : JSStr) :
    SubmitResult × DB :=
  match findItem db iid with
  | none => (.itemNotFound, db)
  | some item =>
    if item.verificationQuestion.isEmpty then (.notConfigured, db)
    else
      let requesterId := userId
      let ownerId := item.user
      if requesterId == ownerId then (.selfContact, db)
      else
        let answerCorrect := evalAnswer answer item.verificationAnswer
        match findRequest db iid requesterId ownerId with
        | none =>
          let cr : ChatRequest :=
            { id := db.nextReqId, item := iid, requester := requesterId, owner := ownerId,
              verificationQuestion := item.verificationQuestion,
              correctAnswer := item.verificationAnswer,
              submittedAnswer := normalize answer,
              answerCorrect := answerCorrect, status := .pending, conversation := none }
          if chatRequestValid cr then
            (.done answerCorrect cr.id,
              { db with requests := db.requests ++ [cr], nextReqId := db.nextReqId + 1 })
          else (.serverError, db)
        | some cr =>
          let cr' := { cr with submittedAnswer := normalize answer,
                               answerCorrect := answerCorrect }
          (.done answerCorrect cr.id, { db with requests := updateReq db.requests cr.id cr' })

/-- Outcome of `approveChatRequest`. -/
inductive ApproveResult
  | notFound
  | forbidden
  | answerNotCorrect
  | approved (conversationId : Nat)
deriving DecidableEq

/-- Embedding of `approveChatRequest` from the chat-request controller. -/
def approveChatRequest (db : DB) (userId rid : Nat) : ApproveResult × DB :=
  match findReqById db rid with
  | none => (.notFound, db)
  | some cr =>
    if cr.owner != userId then (.forbidden, db)
    else if !cr.answerCorrect then (.answerNotCorrect, db)
    else
      match findConvFor db cr.requester cr.owner (some cr.item) with
      | some conv =>
        let cr' := { cr with status := .approved, conversation := some conv.id }
        (.approved conv.id, { db with requests := updateReq db.requests cr.id cr' })
      | none =>
        let conv : Conversation :=
          { id := db.nextConvId, participants := [cr.requester, cr.owner],
            item := some cr.item, lastMessage := none }
        let cr' := { cr with status := .approved, conversation := some conv.id }
        (.approved conv.id,
          { db with convs := db.convs ++ [conv], nextConvId := db.nextConvId + 1,
                    requests := updateReq db.requests cr.id cr' })

/-- Outcome of `declineChatRequest`. -/
inductive DeclineResult
  | notFound
  | forbidden
  | ok
deriving DecidableEq

/-- Embedding of `declineChatRequest` from the chat-request controller. -/
def declineChatRequest (db : DB) (userId rid : Nat) : DeclineResult × DB :=
  match findReqById db rid with
  | none => (.notFound, db)
  | some cr =>
    if cr.owner != userId then (.forbidden, db)
    else
      let cr' := { cr with status := .declined }
      (.ok, { db with requests := updateReq db.requests cr.id cr' })

/-- Outcome of `sendMessage`. -/
inductive SendResult
  | convNotFound
  | notParticipant
  | notApproved
  | sent (messageId : Nat)
deriving DecidableEq

/-- Embedding of `sendMessage` from the message controller.  The verification
gate (lines 105-117) runs when the conversation's populated item exists and
has a verification question; it looks up a `ChatRequest` by
`{item, requester: sender, status: approved}` only. -/
def sendMessage (db : DB) (userId cid : Nat) (content : JSStr) : SendResult × DB :=
  match findConvById db cid with
  | none => (.convNotFound, db)
  | some conv =>
    if !conv.participants.contains userId then (.notParticipant, db)
    else
      let gateDenies : Bool :=
        match conv.item.bind (fun i => findItem db i) with
        | some it =>
          !it.verificationQuestion.isEmpty &&
            (db.requests.find? (fun r =>
              r.item == it.id && r.requester == userId
                && decide (r.status = RStatus.approved))).isNone
        | none => false
      if gateDenies then (.notApproved, db)
      else
        let msg : Message :=
          { id := db.nextMsgId, conversation := cid, sender := userId, content := content }
        let conv' := { conv with lastMessage := some msg.id }
        (.sent msg.id,
          { db with messages := db.messages ++ [msg], nextMsgId := db.nextMsgId + 1,
                    convs := updateConv db.convs conv.id conv' })

/-- Outcome of `createConversation`. -/
inductive CreateConvResult
  | selfConv
  | created (conversationId : Nat)
deriving DecidableEq

/-- Embedding of `createConversation` from the message controller. -/
def createConversation (db : DB) (userId recipientId : Nat) (iid : Option Nat)
    (msg : Option JSStr) : CreateConvResult × DB :=
  if recipientId == userId then (.selfConv, db)
  else
    let found :=
      match findConvFor db userId recipientId iid with
      | some c => (c, db)
      | none =>
        let c : Conversation :=
          { id := db.nextConvId, participants := [userId, recipientId],
            item := iid, lastMessage := none }
        (c, { db with convs := db.convs ++ [c], nextConvId := db.nextConvId + 1 })
    let conv := found.1
    let db1 := found.2
    match msg with
    | none => (.created conv.id, db1)
    | some content =>
      let m : Message :=
        { id := db1.nextMsgId, conversation := conv.id, sender := userId, content := content }
      let conv' := { conv with lastMessage := some m.id }
      (.created conv.id,
        { db1 with messages := db1.messages ++ [m], nextMsgId := db1.nextMsgId + 1,
                   convs := updateConv db1.convs conv.id conv' })

/-- Database states reachable from an initial state by the embedded
operations. -/
inductive Reachable : DB → Prop
  | init (its : List Item) : Reachable (DB.initial its)
  | submit (db : DB) (uid iid : Nat) (a : JSStr) :
      Reachable db → Reachable (submitVerificationAnswer db uid iid a).2
  | approve (db : DB) (uid rid : Nat) :
      Reachable db → Reachable (approveChatRequest db uid rid).2
  | decline (db : DB) (uid rid : Nat) :
      Reachable db → Reachable (declineChatRequest db uid rid).2
  | send (db : DB) (uid cid : Nat) (content : JSStr) :
      Reachable db → Reachable (sendMessage db uid cid content).2
  | createConv (db : DB) (uid rid : Nat) (iid : Option Nat) (m : Option JSStr) :
      Reachable db → Reachable (createConversation db uid rid iid m).2

/-- Record created by the first submission of a triple. -/
def newReq (db : DB) (uid iid : Nat) (item : Item) (a : JSStr) : ChatRequest :=
  { id := db.nextReqId, item := iid, requester := uid, owner := item.user,
    verificationQuestion := item.verificationQuestion,
    correctAnswer := item.verificationAnswer,
    submittedAnswer := normalize a,
    answerCorrect := evalAnswer a item.verificationAnswer,
    status := .pending, conversation := none }

/-- Conversation provisioned by an approval when none exists for the triple. -/
def approvedConv (db : DB) (cr : ChatRequest) : Conversation :=
  { id := db.nextConvId, participants := [cr.requester, cr.owner],
    item := some cr.item, lastMessage := none }

/-- Number of stored requests for one `(item, requester, owner)` triple. -/
def countTriple (db : DB) (iid uid oid : Nat) : Nat :=
  (db.requests.filter (tripleP iid uid oid)).length

/-- Sequential submissions of a list of answers by one requester on one item. -/
def iterSubmit (db : DB) (uid iid : Nat) (answers : List JSStr) : DB :=
  answers.foldl (fun d a => (submitVerificationAnswer d uid iid a).2) db

/-- Well-formedness of the request collection: distinct document ids, all
below the fresh-id counter (true of every real document store). -/
def GoodState (db : DB) : Prop :=
  (db.requests.map (fun r => r.id)).Nodup ∧ ∀ r ∈ db.requests, r.id < db.nextReqId

/-! Concrete scenario used by counterexamples and witnesses: item 10 is owned
by user 1 with question "What color?" and stored answer "blue"; user 2 is the
requester; user 3 is an unrelated third party. -/

/-- Item collection of the concrete scenario. -/
def demoItems : List Item :=
  [{ id := 10, user := 1, verificationQuestion := ofString "What color?",
     verificationAnswer := ofString "blue" }]

/-- State after user 2 opens a conversation with user 3 about item 10
(conversation 0). -/
def demoDB1 : DB := (createConversation (DB.initial demoItems) 2 3 (some 10) none).2

/-- State after user 2 submits the correct answer (request 0, pending). -/
def demoDB2 : DB := (submitVerificationAnswer demoDB1 2 10 (ofString "blue")).2

/-- State after owner 1 approves request 0 (conversation 1 provisioned). -/
def demoDB3 : DB := (approveChatRequest demoDB2 1 0).2

/-- State after owner 1 subsequently declines request 0. -/
def demoDB4 : DB := (declineChatRequest demoDB3 1 0).2

/-- State after user 2 submits a wrong answer on a fresh database. -/
def demoWrong : DB :=
  (submitVerificationAnswer (DB.initial demoItems) 2 10 (ofString "red")).2

/-- Item with no verification question configured. -/
def itemNoQ : Item := { id := 20, user := 5, verificationQuestion := [], verificationAnswer := [] }

/-- Item with a question but no stored answer. -/
def itemQnoA : Item :=
  { id := 30, user := 1, verificationQuestion := ofString "Q", verificationAnswer := [] }

/-! Lemmas about the answer normalization. -/

theorem lowerChar_idem (c : Nat) : lowerChar (lowerChar c) = lowerChar c := by
  by_cases h : 65 ≤ c ∧ c ≤ 90
  · simp only [lowerChar, if_pos h]
    rw [if_neg (by omega)]
  · simp only [lowerChar, if_neg h]

theorem isWsp_false_of_ge (c : Nat) (h : 33 ≤ c) : isWsp c = false := by
  simp only [isWsp, Bool.or_eq_false_iff, beq_eq_false_iff_ne, ne_eq]
  omega

theorem isWsp_lowerChar (c : Nat) : isWsp (lowerChar c) = isWsp c := by
  by_cases h : 65 ≤ c ∧ c ≤ 90
  · simp only [lowerChar, if_pos h]
    rw [isWsp_false_of_ge _ (by omega), isWsp_false_of_ge _ (by omega)]
  · simp only [lowerChar, if_neg h]

theorem toLowerCase_idem (s : JSStr) : toLowerCase (toLowerCase s) = toLowerCase s := by
  induction s with
  | nil => rfl
  | cons a t ih => simp only [toLowerCase, List.map_cons] at ih ⊢
                   rw [lowerChar_idem, ih]

theorem toLowerCase_trim (s : JSStr) : toLowerCase (trim s) = trim (toLowerCase s) := by
  have hcomp : (fun c => isWsp (lowerChar c)) = isWsp := funext isWsp_lowerChar
  simp only [trim, ltrim, rtrim, toLowerCase, List.dropWhile_map, ← List.map_reverse,
    Function.comp_def, hcomp]

theorem dropWhile_dropWhile (p : Nat → Bool) (l : JSStr) :
    List.dropWhile p (List.dropWhile p l) = List.dropWhile p l := by
  induction l with
  | nil => rfl
  | cons a t ih =>
    by_cases h : p a
    · simp [List.dropWhile_cons, h, ih]
    · simp [List.dropWhile_cons, h]

theorem dropWhile_eq_self_of_front (p : Nat → Bool) (l l' : JSStr)
    (hl : List.dropWhile p l = l) (hp : l' <+: l) : List.dropWhile p l' = l' := by
  cases l' with
  | nil => rfl
  | cons a t =>
    cases l with
    | nil => simp at hp
    | cons b u =>
      obtain ⟨r, hr⟩ := hp
      have hab : a = b := by
        have := congrArg (fun x => x.head?) hr
        simpa using this
      subst hab
      have hpb : p a = false := by
        by_contra hpb'
        rw [Bool.not_eq_false] at hpb'
        rw [List.dropWhile_cons_of_pos hpb'] at hl
        have hle : (List.dropWhile p u).length ≤ u.length :=
          (List.dropWhile_suffix p).sublist.length_le
        have := congrArg List.length hl
        simp at this
        omega
      simp [List.dropWhile_cons, hpb]

theorem ltrim_idem (s : JSStr) : ltrim (ltrim s) = ltrim s :=
  dropWhile_dropWhile isWsp s

theorem rtrim_front (s : JSStr) : rtrim s <+: s := by
  unfold rtrim
  rw [← List.reverse_suffix, List.reverse_reverse]
  exact List.dropWhile_suffix _

theorem rtrim_rtrim (s : JSStr) : rtrim (rtrim s) = rtrim s := by
  unfold rtrim
  rw [List.reverse_reverse, dropWhile_dropWhile]

theorem ltrim_rtrim_of_ltrimmed (s : JSStr) (h : ltrim s = s) :
    ltrim (rtrim s) = rtrim s :=
  dropWhile_eq_self_of_front isWsp s (rtrim s) h (rtrim_front s)

theorem trim_idem (s : JSStr) : trim (trim s) = trim s := by
  unfold trim
  rw [ltrim_rtrim_of_ltrimmed _ (ltrim_idem s), rtrim_rtrim]

theorem normalize_idem (s : JSStr) : normalize (normalize s) = normalize s := by
  unfold normalize
  rw [toLowerCase_trim, toLowerCase_idem, trim_idem]

/-! Structural lemmas about the database operations. -/

theorem submit_items (db : DB) (uid iid : Nat) (a : JSStr) :
    (submitVerificationAnswer db uid iid a).2.items = db.items := by
  unfold submitVerificationAnswer
  dsimp only
  repeat' split
  all_goals rfl

theorem approve_items (db : DB) (uid rid : Nat) :
    (approveChatRequest db uid rid).2.items = db.items := by
  unfold approveChatRequest
  dsimp only
  repeat' split
  all_goals rfl

theorem decline_items (db : DB) (uid rid : Nat) :
    (declineChatRequest db uid rid).2.items = db.items := by
  unfold declineChatRequest
  dsimp only
  repeat' split
  all_goals rfl

theorem send_items (db : DB) (uid cid : Nat) (content : JSStr) :
    (sendMessage db uid cid content).2.items = db.items := by
  unfold sendMessage
  dsimp only
  repeat' split
  all_goals rfl

theorem createConv_items (db : DB) (uid rid : Nat) (iid : Option Nat) (m : Option JSStr) :
    (createConversation db uid rid iid m).2.items = db.items := by
  unfold createConversation
  dsimp only
  repeat' split
  all_goals rfl

theorem send_requests (db : DB) (uid cid : Nat) (content : JSStr) :
    (sendMessage db uid cid content).2.requests = db.requests := by
  unfold sendMessage
  dsimp only
  repeat' split
  all_goals rfl

theorem createConv_requests (db : DB) (uid rid : Nat) (iid : Option Nat) (m : Option JSStr) :
    (createConversation db uid rid iid m).2.requests = db.requests := by
  unfold createConversation
  dsimp only
  repeat' split
  all_goals rfl

theorem findItem_congr (db1 db2 : DB) (h : db1.items = db2.items) (iid : Nat) :
    findItem db1 iid = findItem db2 iid := by
  unfold findItem
  rw [h]

theorem mem_updateReq {l : List ChatRequest} {rid : Nat} {r' x : ChatRequest}
    (hx : x ∈ updateReq l rid r') : x = r' ∨ x ∈ l := by
  unfold updateReq at hx
  rcases List.mem_map.1 hx with ⟨a, ha, hax⟩
  by_cases h : (a.id == rid) = true
  · rw [if_pos h] at hax
    exact Or.inl hax.symm
  · rw [if_neg h] at hax
    exact Or.inr (hax ▸ ha)

theorem submit_state_cases (db : DB) (uid iid : Nat) (a : JSStr) :
    ((findItem db iid = none ∨ (∃ item, findItem db iid = some item ∧
        (item.verificationQuestion = [] ∨ uid = item.user ∨
          (findRequest db iid uid item.user = none ∧ item.verificationAnswer = [])))) ∧
      (submitVerificationAnswer db uid iid a).2 = db) ∨
    (∃ item, findItem db iid = some item ∧ item.verificationQuestion ≠ [] ∧
      uid ≠ item.user ∧ item.verificationAnswer ≠ [] ∧
      findRequest db iid uid item.user = none ∧
      (submitVerificationAnswer db uid iid a).1 = .done (evalAnswer a item.verificationAnswer) db.nextReqId ∧
      (submitVerificationAnswer db uid iid a).2
        = { db with requests := db.requests ++ [newReq db uid iid item a],
                    nextReqId := db.nextReqId + 1 }) ∨
    (∃ item cr, findItem db iid = some item ∧ item.verificationQuestion ≠ [] ∧
      uid ≠ item.user ∧ findRequest db iid uid item.user = some cr ∧
      (submitVerificationAnswer db uid iid a).1 = .done (evalAnswer a item.verificationAnswer) cr.id ∧
      (submitVerificationAnswer db uid iid a).2
        = { db with requests := (updateReq db.requests cr.id
              { cr with submittedAnswer := normalize a,
                        answerCorrect := evalAnswer a item.verificationAnswer }) }) := by
  unfold submitVerificationAnswer
  dsimp only
  split
  · rename_i hitem
    exact Or.inl ⟨Or.inl hitem, rfl⟩
  · rename_i item hitem
    split
    · rename_i hq
      exact Or.inl ⟨Or.inr ⟨item, hitem, Or.inl (by simpa [List.isEmpty_iff] using hq)⟩, rfl⟩
    · rename_i hq
      split
      · rename_i hself
        exact Or.inl ⟨Or.inr ⟨item, hitem, Or.inr (Or.inl (by simpa using hself))⟩, rfl⟩
      · rename_i hne
        split
        · rename_i hfr
          split
          · rename_i hval
            have hval' : item.verificationQuestion ≠ [] ∧ item.verificationAnswer ≠ [] := by
              simpa [chatRequestValid, List.isEmpty_iff] using hval
            refine Or.inr (Or.inl ⟨item, hitem, ?_, ?_, hval'.2, hfr, rfl, rfl⟩)
            · simpa [List.isEmpty_iff] using hq
            · simpa using hne
          · rename_i hval
            refine Or.inl ⟨Or.inr ⟨item, hitem, Or.inr (Or.inr ⟨hfr, ?_⟩)⟩, rfl⟩
            have hq' : item.verificationQuestion ≠ [] := by
              simpa [List.isEmpty_iff] using hq
            have himp : ¬item.verificationQuestion = [] → item.verificationAnswer = [] := by
              simpa [chatRequestValid, List.isEmpty_iff] using hval
            exact himp hq'
        · rename_i cr hfr
          refine Or.inr (Or.inr ⟨item, cr, hitem, ?_, ?_, hfr, rfl, rfl⟩)
          · simpa [List.isEmpty_iff] using hq
          · simpa using hne

theorem approve_state_cases (db : DB) (uid rid : Nat) :
    (approveChatRequest db uid rid).2 = db ∨
    (∃ cr conv, findReqById db rid = some cr ∧ cr.owner = uid ∧ cr.answerCorrect = true ∧
      findConvFor db cr.requester cr.owner (some cr.item) = some conv ∧
      (approveChatRequest db uid rid).1 = .approved conv.id ∧
      (approveChatRequest db uid rid).2
        = { db with requests := (updateReq db.requests cr.id
              { cr with status := .approved, conversation := some conv.id }) }) ∨
    (∃ cr, findReqById db rid = some cr ∧ cr.owner = uid ∧ cr.answerCorrect = true ∧
      findConvFor db cr.requester cr.owner (some cr.item) = none ∧
      (approveChatRequest db uid rid).1 = .approved db.nextConvId ∧
      (approveChatRequest db uid rid).2
        = { db with convs := db.convs ++ [approvedConv db cr],
                    nextConvId := db.nextConvId + 1,
                    requests := (updateReq db.requests cr.id
                      { cr with status := .approved, conversation := some db.nextConvId }) }) := by
  unfold approveChatRequest
  dsimp only
  split
  · exact Or.inl rfl
  · rename_i cr hcr
    split
    · exact Or.inl rfl
    · rename_i hown
      split
      · exact Or.inl rfl
      · rename_i hac
        have hown' : cr.owner = uid := by simpa [bne] using hown
        have hac' : cr.answerCorrect = true := by simpa using hac
        split
        · rename_i conv hconv
          exact Or.inr (Or.inl ⟨cr, conv, hcr, hown', hac', hconv, rfl, rfl⟩)
        · rename_i hconv
          exact Or.inr (Or.inr ⟨cr, hcr, hown', hac', hconv, rfl, rfl⟩)

theorem decline_state_cases (db : DB) (uid rid : Nat) :
    (declineChatRequest db uid rid).2 = db ∨
    (∃ cr, findReqById db rid = some cr ∧ cr.owner = uid ∧
      (declineChatRequest db uid rid).1 = .ok ∧
      (declineChatRequest db uid rid).2
        = { db with requests := (updateReq db.requests cr.id { cr with status := .declined }) }) := by
  unfold declineChatRequest
  dsimp only
  split
  · exact Or.inl rfl
  · rename_i cr hcr
    split
    · exact Or.inl rfl
    · rename_i hown
      exact Or.inr ⟨cr, hcr, by simpa [bne] using hown, rfl, rfl⟩

/-! Small lookup lemmas. -/

theorem findReqById_id {db : DB} {rid : Nat} {cr : ChatRequest}
    (h : findReqById db rid = some cr) : cr.id = rid := by
  have := List.find?_some h
  simpa using this

theorem findReqById_mem {db : DB} {rid : Nat} {cr : ChatRequest}
    (h : findReqById db rid = some cr) : cr ∈ db.requests :=
  List.mem_of_find?_eq_some h

theorem findRequest_spec {db : DB} {iid uid oid : Nat} {cr : ChatRequest}
    (h : findRequest db iid uid oid = some cr) :
    cr.item = iid ∧ cr.requester = uid ∧ cr.owner = oid := by
  have := List.find?_some h
  simpa [tripleP, and_assoc] using this

theorem findRequest_mem {db : DB} {iid uid oid : Nat} {cr : ChatRequest}
    (h : findRequest db iid uid oid = some cr) : cr ∈ db.requests :=
  List.mem_of_find?_eq_some h

theorem findItem_id {db : DB} {iid : Nat} {it : Item}
    (h : findItem db iid = some it) : it.id = iid := by
  have := List.find?_some h
  simpa using this

theorem find?_id_updateReq (l : List ChatRequest) (rid : Nat) (r' : ChatRequest)
    (hid : r'.id = rid) (hsome : (l.find? (fun x => x.id == rid)).isSome) :
    (updateReq l rid r').find? (fun x => x.id == rid) = some r' := by
  induction l with
  | nil => simp [List.find?] at hsome
  | cons a t ih =>
    unfold updateReq at ih ⊢
    by_cases h : (a.id == rid) = true
    · rw [List.map_cons, if_pos h]
      exact List.find?_cons_of_pos _ (by simpa using hid)
    · have hb : (a.id == rid) = false := by simpa using h
      rw [List.map_cons, if_neg h]
      simp only [List.find?_cons, hb] at hsome ⊢
      exact ih hsome

/-- Invariant maintained by every operation: a stored request is never a
self-request, its `owner` field is the owning user of its item, its
`conversation` is set only after leaving `pending`, and an `approved` request
always has a conversation. -/
theorem request_invariant (db : DB) (h : Reachable db) :
    ∀ r ∈ db.requests,
      (r.status = RStatus.approved → r.conversation ≠ none) ∧
      (r.conversation ≠ none → r.status ≠ RStatus.pending) ∧
      r.requester ≠ r.owner ∧
      ∃ it, findItem db r.item = some it ∧ it.user = r.owner := by
  induction h with
  | init its =>
    intro r hr
    simp [DB.initial] at hr
  | submit db uid iid a hdb ih =>
    intro r hr
    have hfi : ∀ x, findItem (submitVerificationAnswer db uid iid a).2 x = findItem db x :=
      fun x => findItem_congr _ _ (submit_items db uid iid a) x
    simp only [hfi]
    rcases submit_state_cases db uid iid a with ⟨_, hcase⟩ |
      ⟨item, hitem, _hq, hne, _hans, _hfr, _hres, hpost⟩ |
      ⟨item, cr, _hitem, _hq, _hne, hfr, _hres, hpost⟩
    · rw [hcase] at hr
      exact ih r hr
    · rw [hpost] at hr
      rcases List.mem_append.1 hr with hr | hr
      · exact ih r hr
      · have hrq : r = newReq db uid iid item a := by simpa using hr
        subst hrq
        refine ⟨?_, ?_, ?_, ⟨item, ?_, ?_⟩⟩
        · intro hst; simp [newReq] at hst
        · intro hc; simp [newReq] at hc
        · simpa [newReq] using hne
        · simpa [newReq] using hitem
        · simp [newReq]
    · rw [hpost] at hr
      rcases mem_updateReq hr with hrq | hr
      · subst hrq
        obtain ⟨h1, h2, h3, h4⟩ := ih cr (findRequest_mem hfr)
        exact ⟨h1, h2, h3, h4⟩
      · exact ih r hr
  | approve db uid rid hdb ih =>
    intro r hr
    have hfi : ∀ x, findItem (approveChatRequest db uid rid).2 x = findItem db x :=
      fun x => findItem_congr _ _ (approve_items db uid rid) x
    simp only [hfi]
    rcases approve_state_cases db uid rid with hcase |
      ⟨cr, conv, hcr, _hown, _hac, _hconv, _hres, hpost⟩ |
      ⟨cr, hcr, _hown, _hac, _hconv, _hres, hpost⟩
    · rw [hcase] at hr
      exact ih r hr
    · rw [hpost] at hr
      rcases mem_updateReq hr with hrq | hr
      · subst hrq
        obtain ⟨_h1, _h2, h3, h4⟩ := ih cr (findReqById_mem hcr)
        exact ⟨fun _ => by simp, fun _ => by simp, h3, h4⟩
      · exact ih r hr
    · rw [hpost] at hr
      rcases mem_updateReq hr with hrq | hr
      · subst hrq
        obtain ⟨_h1, _h2, h3, h4⟩ := ih cr (findReqById_mem hcr)
        exact ⟨fun _ => by simp, fun _ => by simp, h3, h4⟩
      · exact ih r hr
  | decline db uid rid hdb ih =>
    intro r hr
    have hfi : ∀ x, findItem (declineChatRequest db uid rid).2 x = findItem db x :=
      fun x => findItem_congr _ _ (decline_items db uid rid) x
    simp only [hfi]
    rcases decline_state_cases db uid rid with hcase | ⟨cr, hcr, _hown, _hres, hpost⟩
    · rw [hcase] at hr
      exact ih r hr
    · rw [hpost] at hr
      rcases mem_updateReq hr with hrq | hr
      · subst hrq
        obtain ⟨_h1, _h2, h3, h4⟩ := ih cr (findReqById_mem hcr)
        refine ⟨fun hst => ?_, fun _ => by simp, h3, h4⟩
        simp at hst
      · exact ih r hr
  | send db uid cid content hdb ih =>
    intro r hr
    have hfi : ∀ x, findItem (sendMessage db uid cid content).2 x = findItem db x :=
      fun x => findItem_congr _ _ (send_items db uid cid content) x
    simp only [hfi]
    rw [send_requests] at hr
    exact ih r hr
  | createConv db uid rid iid m hdb ih =>
    intro r hr
    have hfi : ∀ x, findItem (createConversation db uid rid iid m).2 x = findItem db x :=
      fun x => findItem_congr _ _ (createConv_items db uid rid iid m) x
    simp only [hfi]
    rw [createConv_requests] at hr
    exact ih r hr

theorem demoDB3_reachable : Reachable demoDB3 :=
  Reachable.approve demoDB2 1 0
    (Reachable.submit demoDB1 2 10 (ofString "blue")
      (Reachable.createConv (DB.initial demoItems) 2 3 (some 10) none
        (Reachable.init demoItems)))

theorem demoDB4_reachable : Reachable demoDB4 :=
  Reachable.decline demoDB3 1 0 demoDB3_reachable

/-- C2 counterexample: starting from an empty database, after submit, approve,
then decline on the same record, the stored record has `status = declined`
while its `conversation` (channelId) is still non-null — so "channelId is
non-null iff status == approved" fails after a decline-after-approval. -/
theorem channel_nonnull_iff_approved_counterexample :
    (findReqById demoDB4 0).map (fun r => r.status) = some RStatus.declined ∧
    (findReqById demoDB4 0).map (fun r => r.conversation) = some (some 1) ∧
    Reachable demoDB4 :=
  ⟨by decide, by decide, demoDB4_reachable⟩

/-- C2 (amended): in every reachable state, an `approved` record has a
non-null `conversation`, and a non-null `conversation` implies the record is
not `pending` (it is `approved`, or `declined` after a prior approval); the
unguarded decline handler breaks the full "non-null iff approved"
equivalence. -/
theorem channel_status_invariant (db : DB) (h : Reachable db) :
    ∀ r ∈ db.requests,
      (r.status = RStatus.approved → r.conversation ≠ none) ∧
      (r.conversation ≠ none → r.status ≠ RStatus.pending) := by
  intro r hr
  obtain ⟨h1, h2, _, _⟩ := request_invariant db h r hr
  exact ⟨h1, h2⟩

theorem channel_status_invariant_witness :
    Reachable demoDB4 ∧
    ∀ r ∈ demoDB4.requests,
      (r.status = RStatus.approved → r.conversation ≠ none) ∧
      (r.conversation ≠ none → r.status ≠ RStatus.pending) :=
  ⟨demoDB4_reachable, channel_status_invariant demoDB4 demoDB4_reachable⟩

/-- C3 counterexample: a record that is `approved` moves to `declined` when
the owner calls decline, so `approved` is not terminal. -/
theorem terminal_status_counterexample :
    (findReqById demoDB3 0).map (fun r => r.status) = some RStatus.approved ∧
    (declineChatRequest demoDB3 1 0).1 = DeclineResult.ok ∧
    (findReqById demoDB4 0).map (fun r => r.status) = some RStatus.declined ∧
    Reachable demoDB3 :=
  ⟨by decide, by decide, by decide, demoDB3_reachable⟩

/-- C3 (amended): the pending-to-approved and pending-to-declined transitions
exist, but neither terminal state is guarded: the owner's decline sets
`status = declined` regardless of the current status, and the owner's approve
sets `status = approved` (attaching a conversation) whenever `answerCorrect`
is true, regardless of the current status. -/
theorem owner_actions_overwrite_status (db : DB) (uid rid : Nat) (cr : ChatRequest)
    (hcr : findReqById db rid = some cr) (hown : cr.owner = uid) :
    ((declineChatRequest db uid rid).1 = DeclineResult.ok ∧
      findReqById (declineChatRequest db uid rid).2 rid
        = some { cr with status := RStatus.declined }) ∧
    (cr.answerCorrect = true →
      ∃ c, (approveChatRequest db uid rid).1 = ApproveResult.approved c ∧
        findReqById (approveChatRequest db uid rid).2 rid
          = some { cr with status := RStatus.approved, conversation := some c }) := by
  have hid : cr.id = rid := findReqById_id hcr
  have hsome : (db.requests.find? (fun x => x.id == rid)).isSome := by
    unfold findReqById at hcr
    rw [hcr]
    rfl
  have hbne : (cr.owner != uid) = false := by simp [bne, hown]
  constructor
  · constructor
    · simp [declineChatRequest, hcr, hbne]
    · have hpost : (declineChatRequest db uid rid).2
          = { db with requests := (updateReq db.requests cr.id
                { cr with status := RStatus.declined }) } := by
        simp [declineChatRequest, hcr, hbne]
      rw [hpost]
      unfold findReqById
      dsimp only
      rw [hid]
      exact find?_id_updateReq _ rid _ (by simp [hid]) hsome
  · intro hac
    have hbac : (!cr.answerCorrect) = false := by simp [hac]
    cases hconv : findConvFor db cr.requester cr.owner (some cr.item) with
    | some conv =>
      refine ⟨conv.id, ?_, ?_⟩
      · simp [approveChatRequest, hcr, hbne, hbac, hconv]
      · have hpost : (approveChatRequest db uid rid).2
            = { db with requests := (updateReq db.requests cr.id
                  { cr with status := RStatus.approved, conversation := some conv.id }) } := by
          simp [approveChatRequest, hcr, hbne, hbac, hconv]
        rw [hpost]
        unfold findReqById
        dsimp only
        rw [hid]
        exact find?_id_updateReq _ rid _ (by simp [hid]) hsome
    | none =>
      refine ⟨db.nextConvId, ?_, ?_⟩
      · simp [approveChatRequest, hcr, hbne, hbac, hconv]
      · have hpost : (approveChatRequest db uid rid).2
            = { db with convs := db.convs ++ [approvedConv db cr],
                        nextConvId := db.nextConvId + 1,
                        requests := (updateReq db.requests cr.id
                          { cr with status := RStatus.approved,
                                    conversation := some db.nextConvId }) } := by
          simp [approveChatRequest, hcr, hbne, hbac, hconv, approvedConv]
        rw [hpost]
        unfold findReqById
        dsimp only
        rw [hid]
        exact find?_id_updateReq _ rid _ (by simp [hid]) hsome

theorem owner_actions_overwrite_status_witness :
    (findReqById demoDB3 0
        = some { id := 0, item := 10, requester := 2, owner := 1,
                 verificationQuestion := ofString "What color?",
                 correctAnswer := ofString "blue",
                 submittedAnswer := ofString "blue",
                 answerCorrect := true, status := RStatus.approved,
                 conversation := some 1 }) ∧
    (((declineChatRequest demoDB3 1 0).1 = DeclineResult.ok ∧
      findReqById (declineChatRequest demoDB3 1 0).2 0
        = some { id := 0, item := 10, requester := 2, owner := 1,
                 verificationQuestion := ofString "What color?",
                 correctAnswer := ofString "blue",
                 submittedAnswer := ofString "blue",
                 answerCorrect := true, status := RStatus.declined,
                 conversation := some 1 }) ∧
    (true = true →
      ∃ c, (approveChatRequest demoDB3 1 0).1 = ApproveResult.approved c ∧
        findReqById (approveChatRequest demoDB3 1 0).2 0
          = some { id := 0, item := 10, requester := 2, owner := 1,
                   verificationQuestion := ofString "What color?",
                   correctAnswer := ofString "blue",
                   submittedAnswer := ofString "blue",
                   answerCorrect := true, status := RStatus.approved,
                   conversation := some c })) :=
  ⟨by decide,
    owner_actions_overwrite_status demoDB3 1 0
      { id := 0, item := 10, requester := 2, owner := 1,
        verificationQuestion := ofString "What color?",
        correctAnswer := ofString "blue",
        submittedAnswer := ofString "blue",
        answerCorrect := true, status := RStatus.approved,
        conversation := some 1 }
      (by decide) (by decide)⟩

/-- C10: in every reachable state, a sender who owns the item of a
verification-protected conversation is denied by the gate: the gate looks up
a request with `requester = sender`, self-contact is rejected before any
record is created, and every stored record's owner is the item's user, so no
record with `requester = owner` can exist. -/
theorem owner_send_always_denied (db : DB) (uid cid iid : Nat) (conv : Conversation)
    (it : Item) (m : JSStr)
    (hreach : Reachable db)
    (hconv : findConvById db cid = some conv)
    (hpart : conv.participants.contains uid = true)
    (hitem : conv.item = some iid)
    (hit : findItem db iid = some it)
    (howner : it.user = uid)
    (hq : it.verificationQuestion ≠ []) :
    (sendMessage db uid cid m).1 = SendResult.notApproved := by
  have hqe : it.verificationQuestion.isEmpty = false := by
    simpa [List.isEmpty_iff] using hq
  have hfind : db.requests.find? (fun r =>
      r.item == it.id && r.requester == uid && decide (r.status = RStatus.approved))
      = none := by
    rw [List.find?_eq_none]
    intro r hr hpred
    obtain ⟨_, _, hneq, it', hit', huser⟩ := request_invariant db hreach r hr
    simp only [Bool.and_eq_true, beq_iff_eq, decide_eq_true_eq] at hpred
    obtain ⟨⟨hri, hru⟩, _⟩ := hpred
    have hiid : it.id = iid := findItem_id hit
    rw [hri, hiid, hit] at hit'
    have : it' = it := (Option.some.inj hit').symm
    rw [this, howner] at huser
    exact hneq (hru.trans huser)
  have hmem : uid ∈ conv.participants := by simpa using hpart
  simp [sendMessage, hconv, hpart, hitem, hit, hqe, hfind, hmem]

theorem owner_send_always_denied_witness :
    (Reachable demoDB3 ∧
      findConvById demoDB3 1
        = some { id := 1, participants := [2, 1], item := some 10, lastMessage := none } ∧
      List.contains [2, 1] 1 = true ∧
      findItem demoDB3 10
        = some { id := 10, user := 1, verificationQuestion := ofString "What color?",
                 verificationAnswer := ofString "blue" }) ∧
    (sendMessage demoDB3 1 1 (ofString "hello")).1 = SendResult.notApproved :=
  ⟨⟨demoDB3_reachable, by decide, by decide, by decide⟩,
    owner_send_always_denied demoDB3 1 1 10
      { id := 1, participants := [2, 1], item := some 10, lastMessage := none }
      { id := 10, user := 1, verificationQuestion := ofString "What color?",
        verificationAnswer := ofString "blue" }
      (ofString "hello") demoDB3_reachable
      (by decide) (by decide) (by decide) (by decide) (by decide) (by decide)⟩

/-- C1 counterexample: user 2 is approved for item 10 with provisioned
channel 1, yet sending through channel 0 — a different conversation tied to
the same item — succeeds, because the gate never compares the record's
`conversation` to the channel in use.  The claim requires this send to be
denied. -/
theorem gate_ignores_channel_counterexample :
    (sendMessage demoDB3 2 0 (ofString "hi")).1 = SendResult.sent 0 ∧
    (findReqById demoDB3 0).map (fun r => r.conversation) = some (some 1) ∧
    (findConvById demoDB3 0).map (fun c => c.item) = some (some 10) ∧
    (1 : Nat) ≠ 0 ∧
    Reachable demoDB3 :=
  ⟨by decide, by decide, by decide, by decide, demoDB3_reachable⟩

/-- C1 (amended): on a conversation whose item has no verification question
the send is authorized unconditionally; otherwise it is authorized iff a
ChatRequest for `(itemId, senderId)` with `status = approved` exists — the
record's `channelId` is never compared to the channel in use (and the owner
is not part of the lookup); any other state yields `notApproved`, so a
decline still revokes sending. -/
theorem authorize_send_characterization (db : DB) (uid cid iid : Nat)
    (conv : Conversation) (it : Item) (m : JSStr)
    (hconv : findConvById db cid = some conv)
    (hpart : conv.participants.contains uid = true)
    (hitem : conv.item = some iid)
    (hit : findItem db iid = some it) :
    (it.verificationQuestion = [] →
      (sendMessage db uid cid m).1 = SendResult.sent db.nextMsgId) ∧
    (it.verificationQuestion ≠ [] →
      ((sendMessage db uid cid m).1 = SendResult.sent db.nextMsgId ↔
        ∃ r ∈ db.requests, r.item = it.id ∧ r.requester = uid ∧
          r.status = RStatus.approved)) ∧
    (it.verificationQuestion ≠ [] →
      (∀ r ∈ db.requests, r.item = it.id → r.requester = uid →
        r.status ≠ RStatus.approved) →
      (sendMessage db uid cid m).1 = SendResult.notApproved) := by
  have hmem : uid ∈ conv.participants := by simpa using hpart
  refine ⟨?_, ?_, ?_⟩
  · intro hq
    have hqe : it.verificationQuestion.isEmpty = true := by simp [hq]
    simp [sendMessage, hconv, hmem, hitem, hit, hqe]
  · intro hq
    have hqe : it.verificationQuestion.isEmpty = false := by
      simpa [List.isEmpty_iff] using hq
    cases hfind : db.requests.find? (fun r =>
        r.item == it.id && r.requester == uid && decide (r.status = RStatus.approved)) with
    | none =>
      constructor
      · intro hsent
        exfalso
        simp [sendMessage, hconv, hmem, hitem, hit, hqe, hfind] at hsent
      · rintro ⟨r, hr, hri, hru, hrs⟩
        exfalso
        have := (List.find?_eq_none.mp hfind) r hr
        simp [hri, hru, hrs] at this
    | some r0 =>
      constructor
      · intro _
        have hpred := List.find?_some hfind
        simp only [Bool.and_eq_true, beq_iff_eq, decide_eq_true_eq] at hpred
        exact ⟨r0, List.mem_of_find?_eq_some hfind, hpred.1.1, hpred.1.2, hpred.2⟩
      · intro _
        simp [sendMessage, hconv, hmem, hitem, hit, hqe, hfind]
  · intro hq hall
    have hqe : it.verificationQuestion.isEmpty = false := by
      simpa [List.isEmpty_iff] using hq
    have hfind : db.requests.find? (fun r =>
        r.item == it.id && r.requester == uid && decide (r.status = RStatus.approved))
        = none := by
      rw [List.find?_eq_none]
      intro r hr hpred
      simp only [Bool.and_eq_true, beq_iff_eq, decide_eq_true_eq] at hpred
      exact hall r hr hpred.1.1 hpred.1.2 hpred.2
    simp [sendMessage, hconv, hmem, hitem, hit, hqe, hfind]

theorem authorize_send_characterization_witness :
    (findConvById demoDB3 0
        = some { id := 0, participants := [2, 3], item := some 10, lastMessage := none } ∧
      findItem demoDB3 10
        = some { id := 10, user := 1, verificationQuestion := ofString "What color?",
                 verificationAnswer := ofString "blue" }) ∧
    ((ofString "What color?" = ([] : JSStr) →
      (sendMessage demoDB3 2 0 (ofString "hi")).1 = SendResult.sent demoDB3.nextMsgId) ∧
    (ofString "What color?" ≠ ([] : JSStr) →
      ((sendMessage demoDB3 2 0 (ofString "hi")).1 = SendResult.sent demoDB3.nextMsgId ↔
        ∃ r ∈ demoDB3.requests, r.item = 10 ∧ r.requester = 2 ∧
          r.status = RStatus.approved)) ∧
    (ofString "What color?" ≠ ([] : JSStr) →
      (∀ r ∈ demoDB3.requests, r.item = 10 → r.requester = 2 →
        r.status ≠ RStatus.approved) →
      (sendMessage demoDB3 2 0 (ofString "hi")).1 = SendResult.notApproved)) :=
  ⟨⟨by decide, by decide⟩,
    authorize_send_characterization demoDB3 2 0 10
      { id := 0, participants := [2, 3], item := some 10, lastMessage := none }
      { id := 10, user := 1, verificationQuestion := ofString "What color?",
        verificationAnswer := ofString "blue" }
      (ofString "hi") (by decide) (by decide) (by decide) (by decide)⟩

/-- C5 counterexample: on an item with no verification question, a
self-submission by the owner fails with the not-configured error, not the
self-contact error, because the code checks the question before comparing
requester and owner — so the claim's "for every item" quantification fails. -/
theorem self_contact_error_counterexample :
    submitVerificationAnswer (DB.initial [itemNoQ]) 5 20 (ofString "x")
      = (SubmitResult.notConfigured, DB.initial [itemNoQ]) ∧
    SubmitResult.notConfigured ≠ SubmitResult.selfContact :=
  ⟨by decide, by decide⟩

/-- C5 (amended): for every item with a verification question configured,
a submission by the item's owner fails with the self-contact error and
leaves the database — in particular the request ledger — unchanged; on an
unconfigured item the not-configured check fires first instead. -/
theorem self_contact_rejected (db : DB) (uid iid : Nat) (a : JSStr) (it : Item)
    (hit : findItem db iid = some it) (hq : it.verificationQuestion ≠ [])
    (hself : it.user = uid) :
    submitVerificationAnswer db uid iid a = (SubmitResult.selfContact, db) := by
  have hqe : it.verificationQuestion.isEmpty = false := by
    simpa [List.isEmpty_iff] using hq
  have hself' : (uid == it.user) = true := by simp [hself]
  simp [submitVerificationAnswer, hit, hqe, hself']

theorem self_contact_rejected_witness :
    (findItem (DB.initial demoItems) 10
        = some { id := 10, user := 1, verificationQuestion := ofString "What color?",
                 verificationAnswer := ofString "blue" } ∧
      ofString "What color?" ≠ ([] : JSStr)) ∧
    submitVerificationAnswer (DB.initial demoItems) 1 10 (ofString "blue")
      = (SubmitResult.selfContact, DB.initial demoItems) :=
  ⟨⟨by decide, by decide⟩,
    self_contact_rejected (DB.initial demoItems) 1 10 (ofString "blue")
      { id := 10, user := 1, verificationQuestion := ofString "What color?",
        verificationAnswer := ofString "blue" }
      (by decide) (by decide) (by decide)⟩

/-- C7: approving a request whose `answerCorrect` is false fails with the
answer-not-verified error and returns the database unchanged: no conversation
is provisioned and the record keeps its prior status and channel. -/
theorem approve_requires_correct_answer (db : DB) (uid rid : Nat) (cr : ChatRequest)
    (hcr : findReqById db rid = some cr) (hown : cr.owner = uid)
    (hac : cr.answerCorrect = false) :
    approveChatRequest db uid rid = (ApproveResult.answerNotCorrect, db) := by
  have hbne : (cr.owner != uid) = false := by simp [bne, hown]
  simp [approveChatRequest, hcr, hbne, hac]

theorem approve_requires_correct_answer_witness :
    (findReqById demoWrong 0
        = some { id := 0, item := 10, requester := 2, owner := 1,
                 verificationQuestion := ofString "What color?",
                 correctAnswer := ofString "blue",
                 submittedAnswer := ofString "red",
                 answerCorrect := false, status := RStatus.pending,
                 conversation := none }) ∧
    approveChatRequest demoWrong 1 0 = (ApproveResult.answerNotCorrect, demoWrong) :=
  ⟨by decide,
    approve_requires_correct_answer demoWrong 1 0
      { id := 0, item := 10, requester := 2, owner := 1,
        verificationQuestion := ofString "What color?",
        correctAnswer := ofString "blue",
        submittedAnswer := ofString "red",
        answerCorrect := false, status := RStatus.pending,
        conversation := none }
      (by decide) (by decide) (by decide)⟩

/-- C8: the evaluation at line 38 of the controller returns true iff
lowercasing then trimming the submitted answer equals the stored answer,
the three spec examples against stored answer "blue" all evaluate to true,
and the normalization is idempotent. -/
theorem answer_matching_normalization :
    (∀ sub stored, evalAnswer sub stored = true ↔ normalize sub = stored) ∧
    evalAnswer (ofString "Blue") (ofString "blue") = true ∧
    evalAnswer (ofString " blue ") (ofString "blue") = true ∧
    evalAnswer (ofString "BLUE") (ofString "blue") = true ∧
    (∀ s, normalize (normalize s) = normalize s) := by
  refine ⟨?_, by decide, by decide, by decide, normalize_idem⟩
  intro sub stored
  simp [evalAnswer]

/-- C9 counterexample: on an item with a question but no stored answer, a
first submission does not produce the not-configured error — the controller
passes the question check and calls `ChatRequest.create`, whose required
`correctAnswer` String path rejects the empty snapshot, so the request fails
with the 500 server-error branch (the database, and with it the request
ledger, unchanged) instead of the `VerificationNotConfiguredError` the claim
demands. -/
theorem missing_answer_counterexample :
    (submitVerificationAnswer (DB.initial [itemQnoA]) 2 30 (ofString "x")).1
      = SubmitResult.serverError ∧
    SubmitResult.serverError ≠ SubmitResult.notConfigured ∧
    (submitVerificationAnswer (DB.initial [itemQnoA]) 2 30 (ofString "x")).2
      = DB.initial [itemQnoA] :=
  ⟨by decide, by decide, by decide⟩

/-- C9 (amended): the not-configured error fires iff the item's verification
question is absent.  An absent stored answer alone never triggers it: the
controller checks only the question; on a first submission the subsequent
`ChatRequest.create` then fails the schema's required-String validation on
the empty `correctAnswer` snapshot, surfacing as a 500 server error with the
database unchanged (no record stored). -/
theorem not_configured_iff_question_absent (db : DB) (uid iid : Nat) (a : JSStr)
    (it : Item) (hit : findItem db iid = some it) :
    ((submitVerificationAnswer db uid iid a).1 = SubmitResult.notConfigured ↔
      it.verificationQuestion = []) ∧
    (it.verificationQuestion ≠ [] → it.verificationAnswer = [] → uid ≠ it.user →
      findRequest db iid uid it.user = none →
      submitVerificationAnswer db uid iid a = (SubmitResult.serverError, db)) := by
  constructor
  · by_cases hq : it.verificationQuestion = []
    · have hqe : it.verificationQuestion.isEmpty = true := by simp [hq]
      simp [submitVerificationAnswer, hit, hqe, hq]
    · have hqe : it.verificationQuestion.isEmpty = false := by
        simpa [List.isEmpty_iff] using hq
      refine iff_of_false ?_ hq
      intro hres
      unfold submitVerificationAnswer at hres
      rw [hit] at hres
      simp only [hqe, Bool.false_eq_true, if_false] at hres
      repeat' split at hres
      all_goals simp_all
  · intro hq hempty hne hfr
    have hqe : it.verificationQuestion.isEmpty = false := by
      simpa [List.isEmpty_iff] using hq
    have hbne : (uid == it.user) = false := by simpa using hne
    simp [submitVerificationAnswer, hit, hqe, hbne, hfr, chatRequestValid, hempty]

theorem not_configured_iff_question_absent_witness :
    (findItem (DB.initial [itemQnoA]) 30
        = some { id := 30, user := 1, verificationQuestion := ofString "Q",
                 verificationAnswer := [] }) ∧
    (((submitVerificationAnswer (DB.initial [itemQnoA]) 2 30 (ofString "x")).1
        = SubmitResult.notConfigured ↔ ofString "Q" = ([] : JSStr)) ∧
    (ofString "Q" ≠ ([] : JSStr) → ([] : JSStr) = [] → 2 ≠ 1 →
      findRequest (DB.initial [itemQnoA]) 30 2 1 = none →
      submitVerificationAnswer (DB.initial [itemQnoA]) 2 30 (ofString "x")
        = (SubmitResult.serverError, DB.initial [itemQnoA]))) :=
  ⟨by decide,
    not_configured_iff_question_absent (DB.initial [itemQnoA]) 2 30 (ofString "x")
      { id := 30, user := 1, verificationQuestion := ofString "Q",
        verificationAnswer := [] }
      (by decide)⟩

/-- C4: approving the same correctly-answered record twice in sequence is
idempotent: the first call provisions one conversation and returns its id,
the second call succeeds, returns the same id, creates no further
conversation, and exactly one conversation for the triple exists. -/
theorem approve_idempotent (db : DB) (uid rid : Nat) (cr : ChatRequest)
    (hcr : findReqById db rid = some cr) (hown : cr.owner = uid)
    (hac : cr.answerCorrect = true)
    (hnoconv : findConvFor db cr.requester cr.owner (some cr.item) = none) :
    (approveChatRequest db uid rid).1 = ApproveResult.approved db.nextConvId ∧
    (approveChatRequest (approveChatRequest db uid rid).2 uid rid).1
      = ApproveResult.approved db.nextConvId ∧
    (approveChatRequest (approveChatRequest db uid rid).2 uid rid).2.convs
      = (approveChatRequest db uid rid).2.convs ∧
    ((approveChatRequest (approveChatRequest db uid rid).2 uid rid).2.convs.filter
        (convForTriple cr.requester cr.owner (some cr.item))).length = 1 := by
  have hid : cr.id = rid := findReqById_id hcr
  have hsome : (db.requests.find? (fun x => x.id == rid)).isSome := by
    unfold findReqById at hcr
    rw [hcr]
    rfl
  have hbne : (cr.owner != uid) = false := by simp [bne, hown]
  have hbac : (!cr.answerCorrect) = false := by simp [hac]
  have hpost1 : (approveChatRequest db uid rid).2
      = { db with convs := db.convs ++ [approvedConv db cr],
                  nextConvId := db.nextConvId + 1,
                  requests := (updateReq db.requests cr.id
                    { cr with status := RStatus.approved,
                              conversation := some db.nextConvId }) } := by
    simp [approveChatRequest, hcr, hbne, hbac, hnoconv, approvedConv]
  have hres1 : (approveChatRequest db uid rid).1 = ApproveResult.approved db.nextConvId := by
    simp [approveChatRequest, hcr, hbne, hbac, hnoconv]
  have hcr2 : findReqById (approveChatRequest db uid rid).2 rid
      = some { cr with status := RStatus.approved, conversation := some db.nextConvId } := by
    rw [hpost1]
    unfold findReqById
    dsimp only
    rw [hid]
    exact find?_id_updateReq _ rid _ (by simp [hid]) hsome
  have hprednew : convForTriple cr.requester cr.owner (some cr.item) (approvedConv db cr)
      = true := by
    simp [convForTriple, approvedConv]
  have hconv2 : findConvFor (approveChatRequest db uid rid).2 cr.requester cr.owner
      (some cr.item) = some (approvedConv db cr) := by
    rw [hpost1]
    unfold findConvFor
    dsimp only
    rw [List.find?_append]
    have h0 : db.convs.find? (convForTriple cr.requester cr.owner (some cr.item)) = none :=
      hnoconv
    rw [h0]
    simp [List.find?_cons_of_pos _ hprednew]
  have hres2 : (approveChatRequest (approveChatRequest db uid rid).2 uid rid).1
      = ApproveResult.approved db.nextConvId := by
    generalize hg : (approveChatRequest db uid rid).2 = p1 at hcr2 hconv2
    simp [approveChatRequest, hcr2, hbne, hbac, hconv2, approvedConv]
  have hconvs : (approveChatRequest (approveChatRequest db uid rid).2 uid rid).2.convs
      = (approveChatRequest db uid rid).2.convs := by
    rcases approve_state_cases (approveChatRequest db uid rid).2 uid rid with h2 |
      ⟨cr', conv', _hcr', _h1, _h2, _hconv', _hres, hpost2⟩ |
      ⟨cr', hcr', _h1, _h2, hconv', _hres, hpost2⟩
    · rw [h2]
    · rw [hpost2]
    · exfalso
      rw [hcr2] at hcr'
      have hcr'' := Option.some.inj hcr'
      rw [← hcr''] at hconv'
      exact Option.noConfusion (hconv2 ▸ hconv')
  refine ⟨hres1, hres2, hconvs, ?_⟩
  rw [hconvs, hpost1]
  dsimp only
  rw [List.filter_append]
  have hnil : db.convs.filter (convForTriple cr.requester cr.owner (some cr.item)) = [] := by
    rw [List.filter_eq_nil_iff]
    exact fun c hc => by simpa using (List.find?_eq_none.mp hnoconv) c hc
  rw [hnil]
  simp [hprednew]

theorem approve_idempotent_witness :
    (findReqById demoDB2 0
        = some { id := 0, item := 10, requester := 2, owner := 1,
                 verificationQuestion := ofString "What color?",
                 correctAnswer := ofString "blue",
                 submittedAnswer := ofString "blue",
                 answerCorrect := true, status := RStatus.pending,
                 conversation := none } ∧
      findConvFor demoDB2 2 1 (some 10) = none) ∧
    ((approveChatRequest demoDB2 1 0).1 = ApproveResult.approved demoDB2.nextConvId ∧
    (approveChatRequest (approveChatRequest demoDB2 1 0).2 1 0).1
      = ApproveResult.approved demoDB2.nextConvId ∧
    (approveChatRequest (approveChatRequest demoDB2 1 0).2 1 0).2.convs
      = (approveChatRequest demoDB2 1 0).2.convs ∧
    ((approveChatRequest (approveChatRequest demoDB2 1 0).2 1 0).2.convs.filter
        (convForTriple 2 1 (some 10))).length = 1) :=
  ⟨⟨by decide, by decide⟩,
    approve_idempotent demoDB2 1 0
      { id := 0, item := 10, requester := 2, owner := 1,
        verificationQuestion := ofString "What color?",
        correctAnswer := ofString "blue",
        submittedAnswer := ofString "blue",
        answerCorrect := true, status := RStatus.pending,
        conversation := none }
      (by decide) (by decide) (by decide) (by decide)⟩

/-! Counting and update lemmas for the uniqueness-of-record property. -/

theorem updateReq_cons (a : ChatRequest) (t : List ChatRequest) (rid : Nat)
    (r' : ChatRequest) :
    updateReq (a :: t) rid r'
      = (if (a.id == rid) = true then r' else a) :: updateReq t rid r' := rfl

theorem updateReq_eq_of_no_id (l : List ChatRequest) (rid : Nat) (r' : ChatRequest)
    (h : ∀ x ∈ l, x.id ≠ rid) : updateReq l rid r' = l := by
  induction l with
  | nil => rfl
  | cons a t ih =>
    rw [updateReq_cons, if_neg (by simpa using h a (List.mem_cons_self a t)),
      ih (fun x hx => h x (List.mem_cons_of_mem a hx))]

theorem map_id_updateReq (l : List ChatRequest) (rid : Nat) (r' : ChatRequest)
    (hid : r'.id = rid) :
    (updateReq l rid r').map (fun x => x.id) = l.map (fun x => x.id) := by
  induction l with
  | nil => rfl
  | cons a t ih =>
    rw [updateReq_cons, List.map_cons, List.map_cons, ih]
    congr 1
    by_cases h : (a.id == rid) = true
    · rw [if_pos h, hid]
      exact (beq_iff_eq.mp h).symm
    · rw [if_neg h]

theorem count_updateReq (l : List ChatRequest) (p : ChatRequest → Bool) (r r' : ChatRequest)
    (hids : (l.map (fun x => x.id)).Nodup) (hr : r ∈ l) (hpr : p r = true)
    (hpr' : p r' = true) :
    (List.filter p (updateReq l r.id r')).length = (List.filter p l).length := by
  induction l with
  | nil => cases hr
  | cons a t ih =>
    rw [List.map_cons, List.nodup_cons] at hids
    obtain ⟨hna, hnt⟩ := hids
    rw [updateReq_cons]
    rcases List.mem_cons.mp hr with hra | hrt
    · subst hra
      rw [if_pos (by simp)]
      have ht : updateReq t r.id r' = t :=
        updateReq_eq_of_no_id t r.id r'
          (fun x hx heq => hna (by rw [← heq]; exact List.mem_map_of_mem _ hx))
      rw [ht, List.filter_cons, List.filter_cons]
      simp [hpr, hpr']
    · have haid : (a.id == r.id) = false := by
        rw [beq_eq_false_iff_ne]
        intro heq
        exact hna (by rw [heq]; exact List.mem_map_of_mem _ hrt)
      rw [if_neg (by simp [haid])]
      rw [List.filter_cons, List.filter_cons]
      by_cases hpa : p a = true
      · simp [hpa, ih hnt hrt]
      · simp [hpa, ih hnt hrt]

theorem find_triple_updateReq (l : List ChatRequest) (p : ChatRequest → Bool)
    (r r' : ChatRequest)
    (hids : (l.map (fun x => x.id)).Nodup) (hfind : l.find? p = some r)
    (hpr' : p r' = true) :
    (updateReq l r.id r').find? p = some r' := by
  induction l with
  | nil => simp [List.find?] at hfind
  | cons a t ih =>
    rw [List.map_cons, List.nodup_cons] at hids
    obtain ⟨hna, hnt⟩ := hids
    rw [updateReq_cons]
    by_cases hpa : p a = true
    · rw [List.find?_cons_of_pos _ hpa] at hfind
      have hra : a = r := by injection hfind
      subst hra
      rw [if_pos (by simp)]
      exact List.find?_cons_of_pos _ hpr'
    · rw [List.find?_cons_of_neg _ hpa] at hfind
      have hmem : r ∈ t := List.mem_of_find?_eq_some hfind
      have haid : (a.id == r.id) = false := by
        rw [beq_eq_false_iff_ne]
        intro heq
        exact hna (by rw [heq]; exact List.mem_map_of_mem _ hmem)
      rw [if_neg (by simp [haid])]
      rw [List.find?_cons_of_neg _ hpa]
      exact ih hnt hfind

theorem countTriple_eq_zero_iff (db : DB) (iid uid oid : Nat) :
    countTriple db iid uid oid = 0 ↔ findRequest db iid uid oid = none := by
  unfold countTriple findRequest
  rw [List.length_eq_zero, List.filter_eq_nil_iff, List.find?_eq_none]

theorem countTriple_ne_zero_of_find (db : DB) (iid uid oid : Nat) (r : ChatRequest)
    (h : findRequest db iid uid oid = some r) : countTriple db iid uid oid ≠ 0 := by
  intro h0
  rw [countTriple_eq_zero_iff] at h0
  rw [h0] at h
  cases h

theorem submit_preserves_good (db : DB) (uid iid : Nat) (a : JSStr) (hg : GoodState db) :
    GoodState (submitVerificationAnswer db uid iid a).2 := by
  obtain ⟨hnd, hlt⟩ := hg
  rcases submit_state_cases db uid iid a with ⟨_, hpost⟩ |
    ⟨item, _hitem, _hq, _hne, _hans, _hfr, _hres, hpost⟩ |
    ⟨item, cr, _hitem, _hq, _hne, hfr, _hres, hpost⟩
  · rw [hpost]
    exact ⟨hnd, hlt⟩
  · rw [hpost]
    constructor
    · dsimp only
      rw [List.map_append, List.nodup_append]
      refine ⟨hnd, by simp, ?_⟩
      intro x hx hx2
      have hxid : x = db.nextReqId := by simpa [newReq] using hx2
      rcases List.mem_map.mp hx with ⟨rr, hrr, hxr⟩
      have := hlt rr hrr
      omega
    · intro r hr
      dsimp only at hr ⊢
      rcases List.mem_append.mp hr with hr | hr
      · have := hlt r hr
        omega
      · have hrq : r = newReq db uid iid item a := by simpa using hr
        rw [hrq]
        simp [newReq]
  · rw [hpost]
    constructor
    · dsimp only
      rw [map_id_updateReq db.requests cr.id
        { cr with submittedAnswer := normalize a,
                  answerCorrect := evalAnswer a item.verificationAnswer } rfl]
      exact hnd
    · intro r hr
      dsimp only at hr ⊢
      rcases mem_updateReq hr with hrq | hr
      · rw [hrq]
        exact hlt cr (findRequest_mem hfr)
      · exact hlt r hr

theorem submit_count_zero_to_one (db : DB) (uid iid : Nat) (it : Item) (a : JSStr)
    (hit : findItem db iid = some it) (hq : it.verificationQuestion ≠ [])
    (hne : uid ≠ it.user) (ha : it.verificationAnswer ≠ [])
    (hcount0 : countTriple db iid uid it.user = 0) :
    countTriple (submitVerificationAnswer db uid iid a).2 iid uid it.user = 1 := by
  rcases submit_state_cases db uid iid a with ⟨hreason, _⟩ |
    ⟨item, hitem, _hq2, _hne2, _hans, hfr, _hres, hpost⟩ |
    ⟨item, cr, hitem, _hq2, _hne2, hfr, _hres, hpost⟩
  · exfalso
    rcases hreason with hnone | ⟨item, hitem, hbad⟩
    · rw [hit] at hnone
      cases hnone
    · rw [hit] at hitem
      have heq : it = item := Option.some.inj hitem
      rcases hbad with h | h | ⟨_, h⟩
      · exact hq (by rw [heq]; exact h)
      · exact hne (by rw [heq]; exact h)
      · exact ha (by rw [heq]; exact h)
  · rw [hit] at hitem
    have heq : it = item := Option.some.inj hitem
    rw [← heq] at hfr hpost
    rw [hpost]
    unfold countTriple
    dsimp only
    rw [List.filter_append]
    have hnil : db.requests.filter (tripleP iid uid it.user) = [] := by
      have hf := (countTriple_eq_zero_iff db iid uid it.user).mp hcount0
      rw [List.filter_eq_nil_iff]
      exact fun r hr => by simpa using (List.find?_eq_none.mp hf) r hr
    rw [hnil]
    have hnewp : tripleP iid uid it.user (newReq db uid iid it a) = true := by
      simp [tripleP, newReq]
    simp [hnewp]
  · exfalso
    rw [hit] at hitem
    have heq : it = item := Option.some.inj hitem
    rw [← heq] at hfr
    exact countTriple_ne_zero_of_find db iid uid it.user cr hfr hcount0

theorem submit_count_one_preserved (db : DB) (uid iid : Nat) (it : Item) (a : JSStr)
    (hg : GoodState db) (hit : findItem db iid = some it)
    (hcount1 : countTriple db iid uid it.user = 1) :
    countTriple (submitVerificationAnswer db uid iid a).2 iid uid it.user = 1 := by
  rcases submit_state_cases db uid iid a with ⟨_, hpost⟩ |
    ⟨item, hitem, _hq2, _hne2, _hans, hfr, _hres, hpost⟩ |
    ⟨item, cr, hitem, _hq2, _hne2, hfr, _hres, hpost⟩
  · rw [hpost]
    exact hcount1
  · exfalso
    rw [hit] at hitem
    have heq : it = item := Option.some.inj hitem
    rw [← heq] at hfr
    have := (countTriple_eq_zero_iff db iid uid it.user).mpr hfr
    omega
  · rw [hit] at hitem
    have heq : it = item := Option.some.inj hitem
    rw [← heq] at hfr hpost
    rw [hpost]
    unfold countTriple
    dsimp only
    have hmem : cr ∈ db.requests := findRequest_mem hfr
    have hpr : tripleP iid uid it.user cr = true := List.find?_some hfr
    have h := count_updateReq db.requests (tripleP iid uid it.user) cr
      { cr with submittedAnswer := normalize a,
                answerCorrect := evalAnswer a it.verificationAnswer }
      hg.1 hmem hpr hpr
    exact h.trans hcount1

theorem iter_count_one (uid iid : Nat) (it : Item) (answers : List JSStr) :
    ∀ db : DB, GoodState db → findItem db iid = some it →
      countTriple db iid uid it.user = 1 →
      countTriple (iterSubmit db uid iid answers) iid uid it.user = 1 := by
  induction answers with
  | nil =>
    intro db _ _ h
    exact h
  | cons a rest ih =>
    intro db hg hit h1
    have hstep := submit_count_one_preserved db uid iid it a hg hit h1
    have hg' := submit_preserves_good db uid iid a hg
    have hit' : findItem (submitVerificationAnswer db uid iid a).2 iid = some it := by
      rw [findItem_congr _ db (submit_items db uid iid a)]
      exact hit
    exact ih _ hg' hit' hstep

/-- C6: on a configured item with a non-owner requester, sequential
submissions maintain exactly one record per triple — the first submission
creates it, every later one updates it in place — and a re-submission
overwrites only `submittedAnswer` and `answerCorrect`, leaving `id`,
`status`, `conversation` and the question/answer snapshots untouched; in
particular a wrong re-submission after approval flips `answerCorrect` to
false while `status` stays `approved` and the channel stays set. -/
theorem submission_upsert_unique (db : DB) (uid iid : Nat) (it : Item) (a : JSStr)
    (answers : List JSStr)
    (hg : GoodState db)
    (hit : findItem db iid = some it)
    (hq : it.verificationQuestion ≠ [])
    (hne : uid ≠ it.user)
    (ha : it.verificationAnswer ≠ []) :
    (countTriple db iid uid it.user = 0 → answers ≠ [] →
      countTriple (iterSubmit db uid iid answers) iid uid it.user = 1) ∧
    (∀ r, findRequest db iid uid it.user = some r →
      (submitVerificationAnswer db uid iid a).1
        = SubmitResult.done (evalAnswer a it.verificationAnswer) r.id ∧
      findRequest (submitVerificationAnswer db uid iid a).2 iid uid it.user
        = some { r with submittedAnswer := normalize a,
                        answerCorrect := evalAnswer a it.verificationAnswer }) := by
  constructor
  · intro h0 hans
    cases answers with
    | nil => exact absurd rfl hans
    | cons a0 rest =>
      have h1 := submit_count_zero_to_one db uid iid it a0 hit hq hne ha h0
      have hg' := submit_preserves_good db uid iid a0 hg
      have hit' : findItem (submitVerificationAnswer db uid iid a0).2 iid = some it := by
        rw [findItem_congr _ db (submit_items db uid iid a0)]
        exact hit
      exact iter_count_one uid iid it rest _ hg' hit' h1
  · intro r hfr
    have hqe : it.verificationQuestion.isEmpty = false := by
      simpa [List.isEmpty_iff] using hq
    have hbne : (uid == it.user) = false := by simpa using hne
    constructor
    · simp [submitVerificationAnswer, hit, hqe, hbne, hfr]
    · have hpost : (submitVerificationAnswer db uid iid a).2
          = { db with requests := (updateReq db.requests r.id
                { r with submittedAnswer := normalize a,
                         answerCorrect := evalAnswer a it.verificationAnswer }) } := by
        simp [submitVerificationAnswer, hit, hqe, hbne, hfr]
      rw [hpost]
      unfold findRequest
      dsimp only
      refine find_triple_updateReq db.requests (tripleP iid uid it.user) r
        { r with submittedAnswer := normalize a,
                 answerCorrect := evalAnswer a it.verificationAnswer } hg.1 hfr ?_
      show tripleP iid uid it.user r = true
      exact List.find?_some hfr

theorem submission_upsert_unique_witness :
    (GoodState demoDB3 ∧
      findItem demoDB3 10
        = some { id := 10, user := 1, verificationQuestion := ofString "What color?",
                 verificationAnswer := ofString "blue" }) ∧
    ((countTriple demoDB3 10 2 1 = 0 → [ofString "green"] ≠ [] →
      countTriple (iterSubmit demoDB3 2 10 [ofString "green"]) 10 2 1 = 1) ∧
    (∀ r, findRequest demoDB3 10 2 1 = some r →
      (submitVerificationAnswer demoDB3 2 10 (ofString "green")).1
        = SubmitResult.done (evalAnswer (ofString "green") (ofString "blue")) r.id ∧
      findRequest (submitVerificationAnswer demoDB3 2 10 (ofString "green")).2 10 2 1
        = some { r with submittedAnswer := normalize (ofString "green"),
                        answerCorrect := evalAnswer (ofString "green") (ofString "blue") })) :=
  ⟨⟨⟨by decide, by decide⟩, by decide⟩,
    submission_upsert_unique demoDB3 2 10
      { id := 10, user := 1, verificationQuestion := ofString "What color?",
        verificationAnswer := ofString "blue" }
      (ofString "green") [ofString "green"]
      ⟨by decide, by decide⟩ (by decide) (by decide) (by decide) (by decide)⟩

end LostFound
